import Mathlib

/-
Verification of the conformal decomposition mesh engine (CDMesh subsystem)
and its entity-communication database.

The definitions below are shallow embeddings of the C++ source:
machine doubles become exact rationals, stateful mutation becomes explicit
state passing, and fallible operations return Except.  Each definition is
translated from the corresponding source function; the few places where the
deciding code is declared outside the provided sources are modelled from the
specification and marked as such in their doc comments.
-/

namespace StkMesh

/-- An entity communication entry: a (ghosting-protocol id, destination process)
pair, mirroring stk::mesh::EntityCommInfo with fields ghost_id and proc. -/
structure EntityCommInfo where
  ghost_id : Nat
  proc : Int
  deriving DecidableEq, Repr

/-- Strict ordering of EntityCommInfo used by std::lower_bound on the sorted
comm vector: lexicographic on (ghost_id, proc). -/
def eciLt (a b : EntityCommInfo) : Bool :=
  decide (a.ghost_id < b.ghost_id) ||
    (decide (a.ghost_id = b.ghost_id) && decide (a.proc < b.proc))

/-- A communication record: the sorted vector of EntityCommInfo pairs plus the
cached isShared / isGhost flags, mirroring stk::mesh::EntityComm. -/
structure EntityComm where
  comm_map : List EntityCommInfo
  isShared : Bool
  isGhost : Bool
  deriving DecidableEq, Repr

/-- Notifications delivered to the registered comm-map change listener
(CommMapChangeListener::removedGhost and removedKey). -/
inductive CommListenerEvent where
  | removedGhost (key : Nat) (ghostId : Nat) (proc : Int)
  | removedKey (key : Nat)
  deriving DecidableEq, Repr

/-- The entity communication database: a finite map from entity key to its
communication record (the std::map m_comm_map; the single-slot lookup cache
m_last_lookup is a pure performance device and is not part of the state),
together with the log of listener notifications issued so far. -/
structure EntityCommDatabase where
  entries : List (Nat × EntityComm)
  events : List CommListenerEvent
  deriving DecidableEq, Repr

/-- Lookup of a record by key (cached_find followed by dereference). -/
def lookupComm (db : EntityCommDatabase) (key : Nat) : Option EntityComm :=
  (db.entries.find? (fun e => decide (e.1 = key))).map (fun e => e.2)

/-- EntityCommDatabase::comm(key): the read-only view of the pair vector,
empty on miss (never an error). -/
def comm (db : EntityCommDatabase) (key : Nat) : List EntityCommInfo :=
  match lookupComm db key with
  | none => []
  | some r => r.comm_map

/-- EntityCommDatabase::internal_update_shared_ghosted: recompute the cached
isShared / isGhost flag of the record after an erase that left the vector
nonempty. -/
def internal_update_shared_ghosted (r : EntityComm) (removedSharingProc : Bool) :
    EntityComm :=
  if removedSharingProc then
    { r with isShared := match r.comm_map with
                         | [] => false
                         | x :: _ => decide (x.ghost_id = 0) }
  else
    { r with isGhost := r.comm_map.any (fun i => decide (0 < i.ghost_id)) }

/-- Replace the record stored under a key (in-place update through the map
iterator in the source). -/
def setEntry (entries : List (Nat × EntityComm)) (key : Nat) (r : EntityComm) :
    List (Nat × EntityComm) :=
  entries.map (fun e => if e.1 = key then (key, r) else e)

/-- Remove the whole record of a key from the map (m_comm_map.erase). -/
def eraseEntry (entries : List (Nat × EntityComm)) (key : Nat) :
    List (Nat × EntityComm) :=
  entries.filter (fun e => decide (e.1 ≠ key))

/-- EntityCommDatabase::erase(key, EntityCommInfo val): locate val by binary
search (lower_bound on the sorted vector); if present, notify the listener of
the removed ghost, remove the pair, and, when the vector became empty, delete
the whole record and notify the listener of the removed key; otherwise
recompute the cached flags.  Returns the updated database and whether a pair
was removed. -/
def eraseInfo (db : EntityCommDatabase) (key : Nat) (val : EntityCommInfo) :
    EntityCommDatabase × Bool :=
  match lookupComm db key with
  | none => (db, false)
  | some r =>
    let pre := r.comm_map.takeWhile (fun x => eciLt x val)
    match r.comm_map.dropWhile (fun x => eciLt x val) with
    | [] => (db, false)
    | i :: rest =>
      if i = val then
        let events1 := db.events ++ [CommListenerEvent.removedGhost key i.ghost_id i.proc]
        let newVec := pre ++ rest
        if newVec.isEmpty then
          ({ entries := eraseEntry db.entries key,
             events := events1 ++ [CommListenerEvent.removedKey key] }, true)
        else
          let r1 := internal_update_shared_ghosted { r with comm_map := newVec }
                      (decide (val.ghost_id = 0))
          ({ entries := setEntry db.entries key r1, events := events1 }, true)
      else (db, false)

/-- EntityCommDatabase::erase(key, Ghosting ghost): remove the whole
contiguous range of pairs whose ghost_id equals ghost.ordinal() (delimited by
lower_bound with the sentinels (ordinal, 0) and (ordinal + 1, 0)), notifying
the listener of each removed ghost; when the vector became empty, delete the
whole record and notify the listener of the removed key. -/
def eraseGhosting (db : EntityCommDatabase) (key : Nat) (ghostOrdinal : Nat) :
    EntityCommDatabase × Bool :=
  match lookupComm db key with
  | none => (db, false)
  | some r =>
    let sBegin : EntityCommInfo := ⟨ghostOrdinal, 0⟩
    let sEnd : EntityCommInfo := ⟨ghostOrdinal + 1, 0⟩
    let pre := r.comm_map.takeWhile (fun x => eciLt x sBegin)
    let midRest := r.comm_map.dropWhile (fun x => eciLt x sBegin)
    let mid := midRest.takeWhile (fun x => eciLt x sEnd)
    let rest := midRest.dropWhile (fun x => eciLt x sEnd)
    if mid.isEmpty then (db, false)
    else
      let events1 := db.events ++
        mid.map (fun i => CommListenerEvent.removedGhost key i.ghost_id i.proc)
      let newVec := pre ++ rest
      if newVec.isEmpty then
        ({ entries := eraseEntry db.entries key,
           events := events1 ++ [CommListenerEvent.removedKey key] }, true)
      else
        let r1 := internal_update_shared_ghosted { r with comm_map := newVec }
                    (decide (ghostOrdinal = 0))
        ({ entries := setEntry db.entries key r1, events := events1 }, true)

/-- Concrete database used to witness the erase theorem: one key (7) whose
record holds the single sharing entry (ghost id 0, process 1). -/
def exampleCommDb : EntityCommDatabase :=
  ⟨[(7, ⟨[⟨0, 1⟩], true, false⟩)], []⟩

/-- The communication record stored in exampleCommDb under key 7. -/
def exampleCommRec : EntityComm := ⟨[⟨0, 1⟩], true, false⟩

end StkMesh

namespace Krino

/-- Modelled from the spec: the status flag COORDINATES_MAY_BE_MODIFIED is
declared in Akri_CDMesh.hpp, which is not among the provided sources; the
spec describes the return status of decompose_mesh as a bitmask of
COORDINATES_MAY_BE_MODIFIED and MESH_MODIFIED, so the two flags are distinct
single bits. -/
def COORDINATES_MAY_BE_MODIFIED : Nat := 1

/-- Modelled from the spec: the status flag MESH_MODIFIED, the second bit of
the decompose_mesh status bitmask (see COORDINATES_MAY_BE_MODIFIED). -/
def MESH_MODIFIED : Nat := 2

/-- Per-process inputs of CDMesh::modify_mesh that feed the global
modification decision: whether set_entities_for_existing_child_elements
reported every element as set and correct, and the list of unused old child
elements collected by get_unused_old_child_elements. -/
structure ProcModifyState where
  all_elems_are_set_and_correct : Bool
  unused_old_child_elems : List Nat
  deriving DecidableEq, Repr

/-- CDMesh::modify_mesh's modification decision: modification is needed when
the interface maximum refinement level is positive, or when on any process
some element is not set and correct or some old child element is unused
(stk::is_true_on_any_proc over all processes). -/
def modificationIsNeeded (interfaceMaximumRefinementLevel : Nat)
    (procs : List ProcModifyState) : Bool :=
  decide (0 < interfaceMaximumRefinementLevel) ||
    procs.any (fun p =>
      !p.all_elems_are_set_and_correct || !p.unused_old_child_elems.isEmpty)

/-- CDMesh::modify_mesh returns exactly its modification decision; the mesh
modification transactions are executed if and only if this value is true. -/
def modify_mesh_returns (interfaceMaximumRefinementLevel : Nat)
    (procs : List ProcModifyState) : Bool :=
  modificationIsNeeded interfaceMaximumRefinementLevel procs

/-- CDMesh::decompose_mesh's returned status: MESH_MODIFIED is or-ed onto
COORDINATES_MAY_BE_MODIFIED exactly when modify_mesh returned true. -/
def decompose_mesh_status (interfaceMaximumRefinementLevel : Nat)
    (procs : List ProcModifyState) : Nat :=
  if modify_mesh_returns interfaceMaximumRefinementLevel procs then
    COORDINATES_MAY_BE_MODIFIED ||| MESH_MODIFIED
  else
    COORDINATES_MAY_BE_MODIFIED

/-- The chain of retained CDMesh snapshots reached through my_old_mesh
back-pointers; nil is the null shared_ptr, and each snapshot carries its
my_stash_step_count. -/
inductive MeshChain where
  | nil : MeshChain
  | snap (stashStepCount : Int) (old : MeshChain) : MeshChain
  deriving DecidableEq, Repr

/-- The effect of my_old_mesh->my_old_mesh.reset() on the previous snapshot:
its own old-mesh back-pointer is cleared. -/
def clear_old_mesh : MeshChain → MeshChain
  | MeshChain.nil => MeshChain.nil
  | MeshChain.snap c _ => MeshChain.snap c MeshChain.nil

/-- CDMesh::CDMesh(mesh, old_mesh): the new snapshot starts with
my_stash_step_count = -1 and my_old_mesh = old_mesh, and when old_mesh is
non-null the constructor resets old_mesh's own my_old_mesh back-pointer. -/
def cdmesh_construct (oldMesh : MeshChain) : MeshChain :=
  MeshChain.snap (-1) (clear_old_mesh oldMesh)

/-- CDMesh::stash_field_data(step_count, ...) records the step count in
my_stash_step_count of the stashed snapshot. -/
def set_stash_step_count : MeshChain → Int → MeshChain
  | MeshChain.nil, _ => MeshChain.nil
  | MeshChain.snap _ o, sc => MeshChain.snap sc o

/-- CDMesh::build_and_stash_old_mesh(stepCount): when my_old_mesh is null, a
fresh snapshot (with null old mesh) is created and stashed with step count
-1; otherwise, when the interface maximum refinement level is positive the
old mesh is replaced by a freshly rebuilt snapshot, and in either case the
old mesh is stashed with the given step count. -/
def build_and_stash_old_mesh (m : MeshChain) (stepCount : Int)
    (interfaceMaximumRefinementLevel : Nat) : MeshChain :=
  match m with
  | MeshChain.nil => MeshChain.nil
  | MeshChain.snap c MeshChain.nil =>
      MeshChain.snap c (set_stash_step_count (cdmesh_construct MeshChain.nil) (-1))
  | MeshChain.snap c (MeshChain.snap oc oo) =>
      let oldMesh := if 0 < interfaceMaximumRefinementLevel then
                       cdmesh_construct MeshChain.nil
                     else MeshChain.snap oc oo
      MeshChain.snap c (set_stash_step_count oldMesh stepCount)

/-- Number of snapshots retained along the my_old_mesh chain. -/
def chain_length : MeshChain → Nat
  | MeshChain.nil => 0
  | MeshChain.snap _ o => chain_length o + 1

/-- States of the process-wide the_new_mesh pointer reachable through the
source's lifecycle: initially null; each decompose_mesh step replaces it by
a snapshot constructed over the previous one and then runs
build_and_stash_old_mesh; handle_possible_failed_time_step may replace it by
a snapshot constructed over a null old mesh. -/
inductive ReachableNewMesh : MeshChain → Prop where
  | init : ReachableNewMesh MeshChain.nil
  | decompose_step (m : MeshChain) (stepCount : Int) (lvl : Nat) :
      ReachableNewMesh m →
      ReachableNewMesh (build_and_stash_old_mesh (cdmesh_construct m) stepCount lvl)
  | restore_step (m : MeshChain) :
      ReachableNewMesh m → ReachableNewMesh (cdmesh_construct MeshChain.nil)

/-- Modelled from the spec: the node sign and node score fields of
SubElementNode (Akri_SubElementNode.hpp is not among the provided sources).
Spec 4.2: sign and score are write-once-per-decomposition-pass fields guarded
by explicit is-set predicates, and reads before set are precondition
violations that fail fast.  The slot holds an optional value of the sign
type (Int) or the score type (Rat). -/
structure WriteOnceSlot (α : Type) where
  value : Option α
  deriving DecidableEq, Repr

/-- Clearing a write-once slot (per-pass reset). -/
def clear_slot {α : Type} : WriteOnceSlot α := ⟨none⟩

/-- The explicit is-set predicate guarding a write-once slot. -/
def slot_is_set {α : Type} (s : WriteOnceSlot α) : Bool := s.value.isSome

/-- Writing a write-once slot: a second write within one pass is a
precondition violation that fails fast. -/
def set_slot {α : Type} (s : WriteOnceSlot α) (v : α) : Except String (WriteOnceSlot α) :=
  if slot_is_set s then
    Except.error "precondition violation: field already set this decomposition pass"
  else
    Except.ok ⟨some v⟩

/-- Reading a write-once slot: reading before set is a precondition
violation that fails fast, never a silently returned default. -/
def get_slot {α : Type} (s : WriteOnceSlot α) : Except String α :=
  match s.value with
  | none => Except.error "precondition violation: field read before it was set"
  | some v => Except.ok v

/-- SubElementNode::clear_node_sign, modelled via the write-once slot. -/
def clear_node_sign : WriteOnceSlot Int := clear_slot

/-- SubElementNode::node_sign_is_set, modelled via the write-once slot. -/
def node_sign_is_set (s : WriteOnceSlot Int) : Bool := slot_is_set s

/-- SubElementNode::set_node_sign, modelled via the write-once slot. -/
def set_node_sign (s : WriteOnceSlot Int) (v : Int) : Except String (WriteOnceSlot Int) :=
  set_slot s v

/-- SubElementNode::get_node_sign, modelled via the write-once slot. -/
def get_node_sign (s : WriteOnceSlot Int) : Except String Int := get_slot s

/-- SubElementNode::clear_node_score, modelled via the write-once slot. -/
def clear_node_score : WriteOnceSlot Rat := clear_slot

/-- SubElementNode::node_score_is_set, modelled via the write-once slot. -/
def node_score_is_set (s : WriteOnceSlot Rat) : Bool := slot_is_set s

/-- SubElementNode::set_node_score, modelled via the write-once slot. -/
def set_node_score (s : WriteOnceSlot Rat) (v : Rat) : Except String (WriteOnceSlot Rat) :=
  set_slot s v

/-- SubElementNode::get_node_score, modelled via the write-once slot. -/
def get_node_score (s : WriteOnceSlot Rat) : Except String Rat := get_slot s

/-- One step of the per-interface sign pass: an element writes the sign of
the node at the given index (writes addressed to nodes the snapshot does not
hold are dropped, as in the receive path's null-node check). -/
def apply_sign_write {α : Type} (cur : List (WriteOnceSlot α)) (w : Nat × α) :
    Except String (List (WriteOnceSlot α)) :=
  match cur[w.1]? with
  | none => Except.ok cur
  | some s => (set_slot s w.2).map (fun s1 => cur.set w.1 s1)

/-- Apply the elements' sign (or score) writes in order through the guarded
setter, stopping at the first precondition violation. -/
def run_sign_writes {α : Type} (cur : List (WriteOnceSlot α)) :
    List (Nat × α) → Except String (List (WriteOnceSlot α))
  | [] => Except.ok cur
  | w :: ws =>
    match apply_sign_write cur w with
    | Except.error e => Except.error e
    | Except.ok cur1 => run_sign_writes cur1 ws

/-- CDMesh::determine_node_signs(interface) (and, with α = Rat,
CDMesh::determine_node_scores): every node's slot is cleared, then the
elements' writes are applied in order through the guarded setter. -/
def determine_node_signs_pass {α : Type} (slots : List (WriteOnceSlot α))
    (writes : List (Nat × α)) : Except String (List (WriteOnceSlot α)) :=
  run_sign_writes (slots.map (fun _ => clear_slot)) writes

end Krino

namespace Krino

/-- The five SubElementNode variants. -/
inductive SubElementNodeKind where
  | meshNode | edgeNode | midSideNode | steinerNode | childNode
  deriving DecidableEq, Repr

/-- A sub-element node in the snapshot's node pool.  Parent references are
pool indices (pointer identity).  The parametric edge position and the
interpolation weights are carried as data; they play no role in the
common-child lookup. -/
structure SubElementNodeRec where
  kind : SubElementNodeKind
  parents : List Nat
  edgePosition : Rat
  weights : List Rat
  deriving DecidableEq, Repr

/-- The per-snapshot node state of CDMesh: the managed node pool (indices are
node identities), the child links registered by SubElementNode::add_child,
the my_midside_node_map keyed by the ordered parent pair, and the
mesh_node_map keyed by mesh entity id. -/
structure NodePool where
  nodes : List SubElementNodeRec
  children : List (Nat × Nat)
  my_midside_node_map : List ((Nat × Nat) × Nat)
  mesh_node_map : List (Nat × Nat)
  deriving DecidableEq, Repr

/-- Two parent lists describe the same parent set (compared by identity of
the parent indices, not by value of the parents). -/
def same_parent_set (a b : List Nat) : Bool :=
  a.all (fun p => decide (p ∈ b)) && b.all (fun p => decide (p ∈ a))

/-- The children registered under a given parent via add_child. -/
def children_of (s : NodePool) (p : Nat) : List Nat :=
  s.children.filterMap (fun pc => if pc.1 = p then some pc.2 else none)

/-- Whether pool node c was created from exactly the given parent set. -/
def is_child_with_parents (s : NodePool) (parents : List Nat) (c : Nat) : Bool :=
  match s.nodes[c]? with
  | some n => same_parent_set n.parents parents
  | none => false

/-- Modelled from the spec: SubElementNode::common_child
(Akri_SubElementNode.cpp is not among the provided sources).  Spec 4.2: the
lookup returns the existing node if one was already created from that exact
parent set, found through the parents' registered children and identified by
identity of the parent pointers. -/
def common_child (s : NodePool) (parents : List Nat) : Option Nat :=
  match parents with
  | [] => none
  | p :: _ => (children_of s p).find? (is_child_with_parents s parents)

/-- CDMesh::add_managed_node: append the node to the pool and return its
identity (its pool index). -/
def add_managed_node (s : NodePool) (n : SubElementNodeRec) : NodePool × Nat :=
  ({ s with nodes := s.nodes ++ [n] }, s.nodes.length)

/-- Register a freshly created child under each of its parents
(the parent->add_child(subnode) calls). -/
def add_child_links (s : NodePool) (parents : List Nat) (c : Nat) : NodePool :=
  { s with children := s.children ++ parents.map (fun p => (p, c)) }

/-- CDMesh::create_edge_node: return the common child of the two parents if
one exists, otherwise create a new SubElementEdgeNode and register it as a
child of both parents. -/
def create_edge_node (s : NodePool) (parent1 parent2 : Nat) (position : Rat) :
    NodePool × Nat :=
  match common_child s [parent1, parent2] with
  | some n => (s, n)
  | none =>
    let r := add_managed_node s ⟨SubElementNodeKind.edgeNode, [parent1, parent2], position, []⟩
    (add_child_links r.1 [parent1, parent2] r.2, r.2)

/-- CDMesh::create_child_internal_or_face_node: return the common child of
the parents if one exists, otherwise create a new SubElementChildNode and
register it as a child of every parent. -/
def create_child_internal_or_face_node (s : NodePool) (parents : List Nat)
    (weights : List Rat) : NodePool × Nat :=
  match common_child s parents with
  | some n => (s, n)
  | none =>
    let r := add_managed_node s ⟨SubElementNodeKind.childNode, parents, 0, weights⟩
    (add_child_links r.1 parents r.2, r.2)

/-- CDMesh::create_steiner_node: unconditionally create a new
SubElementSteinerNode; no common-child lookup is performed and the node is
not registered as a child of its parents. -/
def create_steiner_node (s : NodePool) (parents : List Nat) (weights : List Rat) :
    NodePool × Nat :=
  add_managed_node s ⟨SubElementNodeKind.steinerNode, parents, 0, weights⟩

/-- CDMesh::create_midside_node: look the ordered parent pair up in
my_midside_node_map and return the stored node on a hit; otherwise create a
new SubElementMidSideNode and record it in the map. -/
def create_midside_node (s : NodePool) (parent1 parent2 : Nat) : NodePool × Nat :=
  let key := if parent1 < parent2 then (parent1, parent2) else (parent2, parent1)
  match (s.my_midside_node_map.find? (fun e => decide (e.1 = key))).map (fun e => e.2) with
  | some n => (s, n)
  | none =>
    let r := add_managed_node s ⟨SubElementNodeKind.midSideNode, [parent1, parent2], 0, []⟩
    ({ r.1 with my_midside_node_map := r.1.my_midside_node_map ++ [(key, r.2)] }, r.2)

/-- CDMesh::get_mesh_node(node_id): lookup in mesh_node_map. -/
def get_mesh_node (s : NodePool) (nodeId : Nat) : Option Nat :=
  (s.mesh_node_map.find? (fun e => decide (e.1 = nodeId))).map (fun e => e.2)

/-- CDMesh::create_mesh_node: return the existing SubElementMeshNode of the
mesh entity if one exists, otherwise create it and record it under the
entity id (add_managed_mesh_node). -/
def create_mesh_node (s : NodePool) (nodeId : Nat) : NodePool × Nat :=
  match get_mesh_node s nodeId with
  | some n => (s, n)
  | none =>
    let r := add_managed_node s ⟨SubElementNodeKind.meshNode, [], 0, []⟩
    ({ r.1 with mesh_node_map := r.1.mesh_node_map ++ [(nodeId, r.2)] }, r.2)

/-- Concrete node pool used by the create-node theorems: two mesh nodes
(pool indices 0 and 1) standing for entities 10 and 11. -/
def examplePool : NodePool :=
  ⟨[⟨SubElementNodeKind.meshNode, [], 0, []⟩, ⟨SubElementNodeKind.meshNode, [], 0, []⟩],
   [], [], [(10, 0), (11, 1)]⟩

/-- stk::mesh::BulkData::shared_procs_intersection over the node keys of an
ancestry: the processes that share every one of the given entity keys
(the intersection of the per-key sharing process lists). -/
def shared_procs_intersection (sharing : Nat → List Int) : List Nat → List Int
  | [] => []
  | k :: ks =>
      ks.foldl (fun acc k2 => acc.filter (fun p => decide (p ∈ sharing k2))) (sharing k)

/-- CDMesh::build_parallel_hanging_edge_nodes, sending side: for every
parallel-shared edge-node ancestry, its serialized form (the ordered list of
parent entity keys) is packed for every process in the sharing intersection
of its parent keys other than the local rank.  The same packing loop runs
twice, as a size-probe phase and a data phase, over the same data; the
resulting message list is their common content. -/
def build_parallel_hanging_edge_node_messages (myRank : Int)
    (sharing : Nat → List Int) (sharedEdgeNodeAncestries : List (List Nat)) :
    List (Int × List Nat) :=
  sharedEdgeNodeAncestries.flatMap (fun anc =>
    ((shared_procs_intersection sharing anc).filter (fun p => decide (p ≠ myRank))).map
      (fun p => (p, anc)))

/-- The destination set asserted by the claim: every other process that
shares any ancestor node of the ancestry. -/
def procs_sharing_any_ancestor (myRank : Int) (sharing : Nat → List Int)
    (anc : List Nat) : List Int :=
  (anc.flatMap sharing).filter (fun p => decide (p ≠ myRank))

/-- Concrete sharing map used against the hanging-edge-node claim: entity
key 1 is shared only with process 1, entity key 2 only with process 2. -/
def exampleSharing : Nat → List Int :=
  fun k => if k = 1 then [1] else if k = 2 then [2] else []

end Krino

namespace Krino

/-- A prolongation facet candidate, reduced to what the search consumes: its
squared distance to the destination node (FacetDistanceQuery ::
distance_squared) and an identifier. -/
structure ProlongFacet where
  dist2 : Rat
  facetId : Nat
  deriving DecidableEq, Repr

/-- A stashed prolongation node: the sorted set of field ordinals it carries,
its squared distance to the destination node, and its entity id. -/
structure ProlongNodeData where
  fields : List Nat
  dist2 : Rat
  nodeId : Nat
  deriving DecidableEq, Repr

/-- The prolongation source returned by find_prolongation_node: either facet
data or raw node data. -/
inductive ProlongSrcData where
  | facetPoint (f : ProlongFacet)
  | nodePoint (n : ProlongNodeData)
  deriving DecidableEq, Repr

/-- std::includes(tree_fields, required_fields) on the sorted, duplicate-free
field-ordinal vectors: every required field is among the tree's fields. -/
def fields_include (treeFields requiredFields : List Nat) : Bool :=
  requiredFields.all (fun f => decide (f ∈ treeFields))

/-- One step of the running-nearest scan: replace the incumbent only on a
strictly smaller measure (the source's distance_squared comparison, which
keeps the first minimum). -/
def nearestStep {α : Type} (d : α → Rat) (acc : Option α) (x : α) : Option α :=
  match acc with
  | none => some x
  | some b => if d x < d b then some x else some b

/-- Select the entry of least measure, scanning left to right. -/
def pickNearest {α : Type} (d : α → Rat) (l : List α) : Option α :=
  l.foldl (nearestStep d) none

/-- The entries of my_phase_prolong_tree_map whose field set is a superset of
the required fields (a null tree marks facets that exist only remotely). -/
def matching_prolong_trees (treeMap : List (List Nat × Option (List ProlongFacet)))
    (req : List Nat) : List (List Nat × Option (List ProlongFacet)) :=
  treeMap.filter (fun e => fields_include e.1 req)

/-- Whether some matching tree is null (the matching_empty_tree flag). -/
def has_matching_empty_tree (treeMap : List (List Nat × Option (List ProlongFacet)))
    (req : List Nat) : Bool :=
  (matching_prolong_trees treeMap req).any (fun e => e.2.isNone)

/-- All facet candidates produced by the matching non-null trees.  The source
takes, inside each matching tree, the facets returned by
find_closest_entities and keeps a running strict minimum across trees;
minimizing over the concatenation of the trees' candidates is the same
computation. -/
def matching_facet_candidates (treeMap : List (List Nat × Option (List ProlongFacet)))
    (req : List Nat) : List ProlongFacet :=
  (matching_prolong_trees treeMap req).flatMap (fun e => e.2.getD [])

/-- CDMesh::find_prolongation_node: query the nearest facet among exactly the
trees whose field set includes the required fields; if no facet was found and
some matching tree is remote or empty, set my_missing_remote_prolong_facets
(the returned flag) and give up; otherwise fall back to the nearest stashed
node whose field set includes the required fields; if that also fails, return
null (the failure is logged and the caller continues). -/
def find_prolongation_node (treeMap : List (List Nat × Option (List ProlongFacet)))
    (prolongNodeMap : List ProlongNodeData) (requiredFields : List Nat) :
    Option ProlongSrcData × Bool :=
  match pickNearest ProlongFacet.dist2 (matching_facet_candidates treeMap requiredFields) with
  | some f => (some (ProlongSrcData.facetPoint f), false)
  | none =>
    if has_matching_empty_tree treeMap requiredFields then (none, true)
    else
      match pickNearest ProlongNodeData.dist2
              (prolongNodeMap.filter (fun n => fields_include n.fields requiredFields)) with
      | some n => (some (ProlongSrcData.nodePoint n), false)
      | none => (none, false)

/-- Concrete prolongation search inputs used by the witness: one tree over
fields 1 and 2 holding two facets, and one stashed node. -/
def exampleTreeMap : List (List Nat × Option (List ProlongFacet)) :=
  [([1, 2], some [⟨4, 100⟩, ⟨1, 101⟩]), ([1], none)]

/-- Concrete stashed-node map used by the witness. -/
def exampleNodeMap : List ProlongNodeData := [⟨[1, 2], 9, 200⟩]

/-- CDMesh::prolongation: the initial guessed processor padding, three times
the maximum element size. -/
def initial_prolongation_padding (maxElemSize : Rat) : Rat := 3 * maxElemSize

/-- The fixed growth multiplier of the adaptive padding loop. -/
def prolongation_growth_multiplier : Rat := 3 / 2

/-- The measured outcome of one search round: the maximum cdfem displacement
over all nodes and whether any node reported a missing remote prolongation
facet. -/
structure ProlongationRound where
  maxCdfemDisplacement : Rat
  missingRemoteProlongFacets : Bool
  deriving DecidableEq, Repr

/-- The loop guard of the adaptive ghost-padding loop: with
guess_and_check_proc_padding active, the search is redone when some node
reported a missing remote facet or the measured maximum displacement exceeds
the padding used. -/
def prolongation_repeat_needed (guessAndCheckProcPadding : Bool)
    (procPadding : Rat) (r : ProlongationRound) : Bool :=
  guessAndCheckProcPadding &&
    (r.missingRemoteProlongFacets || decide (procPadding < r.maxCdfemDisplacement))

/-- The padding update of a repeat round: the processor padding becomes the
growth multiplier times the measured maximum displacement (the bounding box
is padded by the difference to the previous padding). -/
def next_proc_padding (r : ProlongationRound) : Rat :=
  prolongation_growth_multiplier * r.maxCdfemDisplacement

/-- The adaptive padding loop, driven by the sequence of measured round
outcomes; returns the final padding when the loop exits within the supplied
rounds and none when every supplied round demanded another repeat. -/
def prolongation_pad_loop (procPadding : Rat) :
    List ProlongationRound → Option Rat
  | [] => none
  | r :: rest =>
    if prolongation_repeat_needed true procPadding r then
      prolongation_pad_loop (next_proc_padding r) rest
    else some procPadding

end Krino

namespace Krino

/-- The primary entity rank of a mesh part, as far as the side-part check
consults it. -/
inductive PartRank where
  | elementRank | sideRank | otherRank
  deriving DecidableEq, Repr

/-- The Phase_Support queries consumed by the side-part check: the primary
entity rank of each part, the conformal and interface classifications, the
phase tag of a conformal io part (get_iopart_phase), and the interface part
registered for an ordered pair of conformal volume parts
(find_interface_part, which may be null). -/
structure PhaseSupportModel where
  rank : Nat → PartRank
  is_conformal : Nat → Bool
  is_interface : Nat → Bool
  get_iopart_phase : Nat → Nat
  find_interface_part : Nat → Nat → Option Nat

/-- An element connected (through the side's nodes) to the side being
checked: whether it is in the active part, and its superset parts. -/
structure SideElem where
  active : Bool
  parts : List Nat
  deriving DecidableEq, Repr

/-- The neighborhood of one element side examined by
check_element_side_parts(side_nodes): the elements connected to all side
nodes (including aura copies) and the side entities connected to all side
nodes, each given by its superset parts. -/
structure SideNeighborhood where
  elems : List SideElem
  sides : List (List Nat)
  deriving DecidableEq, Repr

/-- Append a part if it was not collected yet (the std::find guard of the
source's accumulation loop). -/
def push_if_new (l : List Nat) (p : Nat) : List Nat :=
  if p ∈ l then l else l ++ [p]

/-- The distinct conformal volume parts of the active elements touching the
side, in first-seen order. -/
def conformal_volume_parts_of (ps : PhaseSupportModel) (cfg : SideNeighborhood) :
    List Nat :=
  cfg.elems.foldl (fun acc e =>
    if e.active then
      e.parts.foldl (fun acc2 part =>
        if decide (ps.rank part = PartRank.elementRank) && ps.is_conformal part then
          push_if_new acc2 part
        else acc2) acc
    else acc) []

/-- The interface side parts registered for the two conformal volume parts,
queried in both orders and dropping null results. -/
def conformal_side_parts_of (ps : PhaseSupportModel) (p0 p1 : Nat) : List Nat :=
  ([ps.find_interface_part p0 p1, ps.find_interface_part p1 p0]).filterMap id

/-- The else-branch of check_element_side_parts (one conformal volume part,
or two with equal phase): more than one side entity fails the check; then the
parts of sides[0] are read — when no side entity exists this subscript of the
empty vector is an out-of-bounds access, returned here as an error — and the
check fails when any of them is a side-rank interface part. -/
def check_side_has_no_interface_part (ps : PhaseSupportModel)
    (sides : List (List Nat)) : Except String Bool :=
  if 1 < sides.length then Except.ok false
  else
    match sides with
    | [] => Except.error "out-of-bounds access: no side entity exists but the first side is dereferenced"
    | s0 :: _ =>
      Except.ok (!(s0.any (fun part =>
        decide (ps.rank part = PartRank.sideRank) && ps.is_interface part)))

/-- CDMesh::check_element_side_parts(side_nodes): collect the distinct
conformal volume parts of the active elements touching the side; an empty
collection passes; more than two fails; exactly two with differing phase and
a registered interface part requires exactly one side entity carrying every
registered interface part; otherwise the side (if it exists) must carry no
interface part. -/
def check_element_side_parts (ps : PhaseSupportModel) (cfg : SideNeighborhood) :
    Except String Bool :=
  match conformal_volume_parts_of ps cfg with
  | [] => Except.ok true
  | [_] => check_side_has_no_interface_part ps cfg.sides
  | [p0, p1] =>
    if ps.get_iopart_phase p0 ≠ ps.get_iopart_phase p1 then
      match conformal_side_parts_of ps p0 p1 with
      | [] => Except.ok true
      | c :: cs =>
        match cfg.sides with
        | [s0] => Except.ok ((c :: cs).all (fun p => decide (p ∈ s0)))
        | _ => Except.ok false
    else check_side_has_no_interface_part ps cfg.sides
  | _ => Except.ok false

/-- CDMesh::check_element_side_parts() as asserted by modify_mesh right
after update_element_side_parts: the per-side check over every side of every
active locally owned element, all of which must pass. -/
def check_all_element_side_parts (ps : PhaseSupportModel) :
    List SideNeighborhood → Except String Bool
  | [] => Except.ok true
  | cfg :: rest =>
    match check_element_side_parts ps cfg with
    | Except.error e => Except.error e
    | Except.ok b =>
      match check_all_element_side_parts ps rest with
      | Except.error e => Except.error e
      | Except.ok brest => Except.ok (b && brest)

/-- Concrete phase support used by the side-part witness: parts 0 and 1 are
conformal volume parts of phases 0 and 1, part 5 is their interface side
part. -/
def exampleSidePhaseSupport : PhaseSupportModel where
  rank := fun part => if part ≤ 1 then PartRank.elementRank
                      else if part = 5 then PartRank.sideRank else PartRank.otherRank
  is_conformal := fun part => part ≤ 1
  is_interface := fun part => part = 5
  get_iopart_phase := fun part => part
  find_interface_part := fun p0 p1 => if p0 = 0 && p1 = 1 then some 5 else none

/-- Concrete side neighborhood used by the side-part witness: two active
elements of differing phases and one side entity carrying the interface
part. -/
def exampleSideNeighborhood : SideNeighborhood :=
  ⟨[⟨true, [0]⟩, ⟨true, [1]⟩], [[5]]⟩

end Krino

namespace StkMesh

theorem eciLt_irrefl (a : EntityCommInfo) : eciLt a a = false := by
  simp [eciLt]

theorem takeWhile_eq_nil_of_false {α : Type} (p : α → Bool) (l : List α)
    (h : ∀ x ∈ l, p x = false) : l.takeWhile p = [] := by
  cases l with
  | nil => rfl
  | cons a t =>
    rw [List.takeWhile_cons, h a (List.mem_cons_self a t)]
    simp

theorem dropWhile_eq_self_of_false {α : Type} (p : α → Bool) (l : List α)
    (h : ∀ x ∈ l, p x = false) : l.dropWhile p = l := by
  cases l with
  | nil => rfl
  | cons a t =>
    rw [List.dropWhile_cons, h a (List.mem_cons_self a t)]
    simp

theorem takeWhile_eq_self_of_true {α : Type} (p : α → Bool) (l : List α)
    (h : ∀ x ∈ l, p x = true) : l.takeWhile p = l := by
  induction l with
  | nil => rfl
  | cons a t ih =>
    rw [List.takeWhile_cons, h a (List.mem_cons_self a t)]
    simp only [if_true]
    rw [ih (fun x hx => h x (List.mem_cons_of_mem a hx))]

theorem dropWhile_eq_nil_of_true {α : Type} (p : α → Bool) (l : List α)
    (h : ∀ x ∈ l, p x = true) : l.dropWhile p = [] := by
  induction l with
  | nil => rfl
  | cons a t ih =>
    rw [List.dropWhile_cons, h a (List.mem_cons_self a t)]
    simp only [if_true]
    exact ih (fun x hx => h x (List.mem_cons_of_mem a hx))

theorem find?_eraseEntry_eq_none (entries : List (Nat × EntityComm)) (key : Nat) :
    (eraseEntry entries key).find? (fun e => decide (e.1 = key)) = none := by
  rw [List.find?_eq_none]
  intro x hx
  have hmem := List.mem_filter.mp hx
  have hne : x.1 ≠ key := of_decide_eq_true hmem.2
  simp [hne]

theorem lookupComm_eraseEntry (db : EntityCommDatabase) (key : Nat)
    (events1 : List CommListenerEvent) :
    lookupComm ⟨eraseEntry db.entries key, events1⟩ key = none := by
  unfold lookupComm
  rw [find?_eraseEntry_eq_none]
  rfl

theorem eraseInfo_singleton_deletes (db : EntityCommDatabase) (key : Nat)
    (val : EntityCommInfo) (r : EntityComm)
    (hl : lookupComm db key = some r) (hc : r.comm_map = [val]) :
    (eraseInfo db key val).2 = true ∧
    lookupComm (eraseInfo db key val).1 key = none ∧
    comm (eraseInfo db key val).1 key = [] ∧
    CommListenerEvent.removedKey key ∈ (eraseInfo db key val).1.events := by
  have hred : eraseInfo db key val =
      ({ entries := eraseEntry db.entries key,
         events := (db.events ++ [CommListenerEvent.removedGhost key val.ghost_id val.proc]) ++
                   [CommListenerEvent.removedKey key] }, true) := by
    unfold eraseInfo
    rw [hl]
    simp [hc, eciLt_irrefl]
  rw [hred]
  refine ⟨rfl, ?_, ?_, ?_⟩
  · exact lookupComm_eraseEntry db key _
  · unfold comm
    rw [lookupComm_eraseEntry db key _]
  · simp

theorem eraseGhosting_full_range_deletes (db : EntityCommDatabase) (key : Nat)
    (ghostOrdinal : Nat) (r : EntityComm)
    (hl : lookupComm db key = some r) (hne : r.comm_map ≠ [])
    (hall : ∀ x ∈ r.comm_map, x.ghost_id = ghostOrdinal ∧ 0 ≤ x.proc) :
    (eraseGhosting db key ghostOrdinal).2 = true ∧
    lookupComm (eraseGhosting db key ghostOrdinal).1 key = none ∧
    comm (eraseGhosting db key ghostOrdinal).1 key = [] ∧
    CommListenerEvent.removedKey key ∈ (eraseGhosting db key ghostOrdinal).1.events := by
  have hPre : ∀ x ∈ r.comm_map, eciLt x ⟨ghostOrdinal, 0⟩ = false := by
    intro x hx
    obtain ⟨hg, hp⟩ := hall x hx
    simp [eciLt, hg, not_lt.mpr hp]
  have hMid : ∀ x ∈ r.comm_map, eciLt x ⟨ghostOrdinal + 1, 0⟩ = true := by
    intro x hx
    obtain ⟨hg, _⟩ := hall x hx
    simp [eciLt, hg]
  have htake0 := takeWhile_eq_nil_of_false _ r.comm_map hPre
  have hdrop0 := dropWhile_eq_self_of_false _ r.comm_map hPre
  have htake1 := takeWhile_eq_self_of_true (fun x => eciLt x ⟨ghostOrdinal + 1, 0⟩) r.comm_map hMid
  have hdrop1 := dropWhile_eq_nil_of_true (fun x => eciLt x ⟨ghostOrdinal + 1, 0⟩) r.comm_map hMid
  have hredEmpty : r.comm_map.isEmpty = false := by
    cases hcm : r.comm_map with
    | nil => exact absurd hcm hne
    | cons a t => rfl
  have hred : eraseGhosting db key ghostOrdinal =
      ({ entries := eraseEntry db.entries key,
         events := (db.events ++
            r.comm_map.map (fun i => CommListenerEvent.removedGhost key i.ghost_id i.proc)) ++
            [CommListenerEvent.removedKey key] }, true) := by
    unfold eraseGhosting
    rw [hl]
    simp only [htake0, hdrop0, htake1, hdrop1, hredEmpty, List.append_nil,
      List.nil_append, Bool.false_eq_true, if_false, List.isEmpty_nil, if_true]
  rw [hred]
  refine ⟨rfl, ?_, ?_, ?_⟩
  · exact lookupComm_eraseEntry db key _
  · unfold comm
    rw [lookupComm_eraseEntry db key _]
  · simp

/-- Claim C9: for every entity key, whenever
erase(key, info) or erase(key, ghosting) removes the last (protocol-id,
process) pair so that the record's pair-vector becomes empty, the whole
record is deleted from the database at that moment — a subsequent lookup of
the key finds no record and comm(key) returns the empty view — and the
registered change listener is notified of the removed key. -/
theorem entityCommDatabase_erase_deletes_record_when_emptied
    (db : EntityCommDatabase) (key : Nat) (val : EntityCommInfo)
    (ghostOrdinal : Nat) (r : EntityComm) :
    (lookupComm db key = some r → r.comm_map = [val] →
      (eraseInfo db key val).2 = true ∧
      lookupComm (eraseInfo db key val).1 key = none ∧
      comm (eraseInfo db key val).1 key = [] ∧
      CommListenerEvent.removedKey key ∈ (eraseInfo db key val).1.events) ∧
    (lookupComm db key = some r → r.comm_map ≠ [] →
      (∀ x ∈ r.comm_map, x.ghost_id = ghostOrdinal ∧ 0 ≤ x.proc) →
      (eraseGhosting db key ghostOrdinal).2 = true ∧
      lookupComm (eraseGhosting db key ghostOrdinal).1 key = none ∧
      comm (eraseGhosting db key ghostOrdinal).1 key = [] ∧
      CommListenerEvent.removedKey key ∈ (eraseGhosting db key ghostOrdinal).1.events) :=
  ⟨fun hl hc => eraseInfo_singleton_deletes db key val r hl hc,
   fun hl hne hall => eraseGhosting_full_range_deletes db key ghostOrdinal r hl hne hall⟩

/-- Witness for C9: erasing the one remaining pair of key 7 in the concrete
database deletes the record, and the ghosting erase does the same. -/
theorem entityCommDatabase_erase_deletes_record_when_emptied_witness :
    ((eraseInfo exampleCommDb 7 ⟨0, 1⟩).2 = true ∧
      lookupComm (eraseInfo exampleCommDb 7 ⟨0, 1⟩).1 7 = none ∧
      comm (eraseInfo exampleCommDb 7 ⟨0, 1⟩).1 7 = [] ∧
      CommListenerEvent.removedKey 7 ∈ (eraseInfo exampleCommDb 7 ⟨0, 1⟩).1.events) ∧
    ((eraseGhosting exampleCommDb 7 0).2 = true ∧
      lookupComm (eraseGhosting exampleCommDb 7 0).1 7 = none ∧
      comm (eraseGhosting exampleCommDb 7 0).1 7 = [] ∧
      CommListenerEvent.removedKey 7 ∈ (eraseGhosting exampleCommDb 7 0).1.events) :=
  ⟨(entityCommDatabase_erase_deletes_record_when_emptied exampleCommDb 7 ⟨0, 1⟩ 0
      exampleCommRec).1 (by decide) (by decide),
   (entityCommDatabase_erase_deletes_record_when_emptied exampleCommDb 7 ⟨0, 1⟩ 0
      exampleCommRec).2 (by decide) (by decide) (by decide)⟩

end StkMesh

namespace Krino

theorem modificationIsNeeded_eq_false (procs : List ProcModifyState)
    (hall : procs.all
      (fun p => p.all_elems_are_set_and_correct && p.unused_old_child_elems.isEmpty) = true) :
    modificationIsNeeded 0 procs = false := by
  unfold modificationIsNeeded
  have h1 : procs.any
      (fun p => !p.all_elems_are_set_and_correct || !p.unused_old_child_elems.isEmpty) = false := by
    apply Bool.eq_false_iff.mpr
    intro hany
    obtain ⟨x, hx, hpx⟩ := List.any_eq_true.mp hany
    have hfx := List.all_eq_true.mp hall x hx
    rw [Bool.and_eq_true] at hfx
    simp only [hfx.1, hfx.2, Bool.not_true, Bool.or_self] at hpx
    exact Bool.false_ne_true hpx
  rw [h1]
  rfl

/-- Counterexample to claim C1 as stated: with adaptive interface refinement
enabled (interface maximum refinement level 1) and unchanged geometry (the
single process reports every element set and correct and no unused old child
elements), modify_mesh still returns true and decompose_mesh reports a
status with the MESH_MODIFIED bit set, so re-running decompose_mesh on a
mesh with unchanged geometry does not always report a status without
MESH_MODIFIED. -/
theorem decompose_mesh_status_modified_despite_unchanged_geometry :
    ¬(decompose_mesh_status 1 [⟨true, []⟩] &&& MESH_MODIFIED = 0) := by decide

/-- Claim C1 (amended): the status returned by decompose_mesh is a bitmask
over COORDINATES_MAY_BE_MODIFIED and MESH_MODIFIED in which
COORDINATES_MAY_BE_MODIFIED is always set, and MESH_MODIFIED is set if and
only if modify_mesh performed (and reported) the mesh-modification phase,
which happens exactly when the interface maximum refinement level is
positive or some process has an element not set and correct or an unused old
child element; in particular, re-running decompose_mesh on a mesh with
unchanged geometry reports a status without the MESH_MODIFIED bit provided
the interface maximum refinement level is zero. -/
theorem decompose_mesh_status_spec (lvl : Nat) (procs : List ProcModifyState) :
    decompose_mesh_status lvl procs &&& COORDINATES_MAY_BE_MODIFIED ≠ 0 ∧
    (decompose_mesh_status lvl procs &&& MESH_MODIFIED ≠ 0 ↔
      modify_mesh_returns lvl procs = true) ∧
    decompose_mesh_status lvl procs ||| (COORDINATES_MAY_BE_MODIFIED ||| MESH_MODIFIED) =
      COORDINATES_MAY_BE_MODIFIED ||| MESH_MODIFIED ∧
    (lvl = 0 →
      procs.all
        (fun p => p.all_elems_are_set_and_correct && p.unused_old_child_elems.isEmpty) = true →
      decompose_mesh_status lvl procs &&& MESH_MODIFIED = 0) := by
  cases h : modify_mesh_returns lvl procs with
  | false =>
    unfold decompose_mesh_status
    rw [h]
    refine ⟨by decide, by decide, by decide, fun _ _ => by decide⟩
  | true =>
    unfold decompose_mesh_status
    rw [h]
    refine ⟨by decide, by decide, by decide, ?_⟩
    intro h0 hall
    exfalso
    rw [h0] at h
    unfold modify_mesh_returns at h
    rw [modificationIsNeeded_eq_false procs hall] at h
    exact Bool.false_ne_true h

/-- Witness for C1 (amended): at refinement level 0 with a single process
reporting unchanged geometry, the status carries COORDINATES_MAY_BE_MODIFIED
and not MESH_MODIFIED. -/
theorem decompose_mesh_status_spec_witness :
    decompose_mesh_status 0 [⟨true, []⟩] &&& COORDINATES_MAY_BE_MODIFIED ≠ 0 ∧
    decompose_mesh_status 0 [⟨true, []⟩] &&& MESH_MODIFIED = 0 :=
  ⟨(decompose_mesh_status_spec 0 [⟨true, []⟩]).1,
   (decompose_mesh_status_spec 0 [⟨true, []⟩]).2.2.2 rfl (by decide)⟩

theorem chain_length_clear_old_mesh_le_one (m : MeshChain) :
    chain_length (clear_old_mesh m) ≤ 1 := by
  cases m <;> simp [clear_old_mesh, chain_length]

/-- Claim C10: constructing a new CDMesh snapshot with a previous snapshot
as its old mesh resets the previous snapshot's own old-mesh back-pointer
(second conjunct), so every state of the process-wide snapshot pointer
reachable through the decompose / restore lifecycle retains at most two
snapshots along the old-mesh chain — the current one and its immediate
predecessor (first conjunct). -/
theorem cdmesh_snapshot_chain_at_most_two (m : MeshChain) (c : Int) (o : MeshChain) :
    (ReachableNewMesh m → chain_length m ≤ 2) ∧
    cdmesh_construct (MeshChain.snap c o) =
      MeshChain.snap (-1) (MeshChain.snap c MeshChain.nil) := by
  constructor
  · intro h
    induction h with
    | init => exact Nat.zero_le 2
    | decompose_step m1 sc lvl hm ih =>
      cases m1 with
      | nil =>
        simp [cdmesh_construct, clear_old_mesh, build_and_stash_old_mesh,
          set_stash_step_count, chain_length]
      | snap c2 o2 =>
        by_cases hl : 0 < lvl <;>
          simp [cdmesh_construct, clear_old_mesh, build_and_stash_old_mesh,
            set_stash_step_count, chain_length, hl]
    | restore_step m1 hm ih =>
      simp [cdmesh_construct, clear_old_mesh, chain_length]
  · rfl

/-- Witness for C10: after one decompose step from the initial null pointer
the retained chain has length two, and constructing over a concrete
one-snapshot chain resets that snapshot's back-pointer. -/
theorem cdmesh_snapshot_chain_at_most_two_witness :
    chain_length (build_and_stash_old_mesh (cdmesh_construct MeshChain.nil) 5 0) ≤ 2 ∧
    cdmesh_construct (MeshChain.snap 3 MeshChain.nil) =
      MeshChain.snap (-1) (MeshChain.snap 3 MeshChain.nil) :=
  ⟨(cdmesh_snapshot_chain_at_most_two
      (build_and_stash_old_mesh (cdmesh_construct MeshChain.nil) 5 0) 3 MeshChain.nil).1
      (ReachableNewMesh.decompose_step MeshChain.nil 5 0 ReachableNewMesh.init),
   (cdmesh_snapshot_chain_at_most_two MeshChain.nil 3 MeshChain.nil).2⟩

end Krino


namespace Krino

theorem apply_sign_write_ok_cases {α : Type} (cur cur1 : List (WriteOnceSlot α))
    (w : Nat × α) (h : apply_sign_write cur w = Except.ok cur1) :
    (cur[w.1]? = none ∧ cur1 = cur) ∨
    (∃ s, cur[w.1]? = some s ∧ slot_is_set s = false ∧
      cur1 = cur.set w.1 ⟨some w.2⟩) := by
  unfold apply_sign_write at h
  split at h
  next hget =>
    left
    exact ⟨hget, (Except.ok.inj h).symm⟩
  next s hget =>
    right
    unfold set_slot at h
    split at h
    next hset =>
      simp [Except.map] at h
    next hset =>
      refine ⟨s, hget, Bool.eq_false_iff.mpr hset, ?_⟩
      simp only [Except.map] at h
      exact (Except.ok.inj h).symm

theorem run_sign_writes_cons_ok {α : Type} (cur cur1 : List (WriteOnceSlot α))
    (w : Nat × α) (ws : List (Nat × α))
    (h : apply_sign_write cur w = Except.ok cur1) :
    run_sign_writes cur (w :: ws) = run_sign_writes cur1 ws := by
  rw [run_sign_writes, h]

theorem run_sign_writes_cons_err {α : Type} (cur : List (WriteOnceSlot α))
    (w : Nat × α) (ws : List (Nat × α)) (e : String)
    (h : apply_sign_write cur w = Except.error e) :
    run_sign_writes cur (w :: ws) = Except.error e := by
  rw [run_sign_writes, h]

theorem run_sign_writes_no_write_to_set_index {α : Type}
    (ws : List (Nat × α)) (cur out : List (WriteOnceSlot α)) (i : Nat)
    (s : WriteOnceSlot α) (hget : cur[i]? = some s) (hset : slot_is_set s = true)
    (hok : run_sign_writes cur ws = Except.ok out) :
    ∀ w ∈ ws, w.1 ≠ i := by
  induction ws generalizing cur with
  | nil => intro w hw; cases hw
  | cons w rest ih =>
    cases hstep : apply_sign_write cur w with
    | error e =>
      rw [run_sign_writes_cons_err cur w rest e hstep] at hok
      cases hok
    | ok cur1 =>
      rw [run_sign_writes_cons_ok cur cur1 w rest hstep] at hok
      rcases apply_sign_write_ok_cases cur cur1 w hstep with
        ⟨hget2, heq⟩ | ⟨s0, hget2, hset0, hseq⟩
      · have hwne : w.1 ≠ i := by
          intro hwi
          rw [hwi, hget] at hget2
          cases hget2
        intro w2 hw2
        rcases List.mem_cons.mp hw2 with h2 | h2
        · rw [h2]; exact hwne
        · exact ih cur hget (by rw [← heq]; exact hok) w2 h2
      · have hwne : w.1 ≠ i := by
          intro hwi
          rw [hwi, hget] at hget2
          cases hget2
          rw [hset] at hset0
          cases hset0
        intro w2 hw2
        rcases List.mem_cons.mp hw2 with h2 | h2
        · rw [h2]; exact hwne
        · refine ih cur1 ?_ hok w2 h2
          rw [hseq, List.getElem?_set_ne hwne]
          exact hget

theorem run_sign_writes_at_most_one_write {α : Type}
    (ws : List (Nat × α)) (cur out : List (WriteOnceSlot α)) (i : Nat)
    (hlen : i < cur.length) (hok : run_sign_writes cur ws = Except.ok out) :
    (ws.filter (fun w => decide (w.1 = i))).length ≤ 1 := by
  induction ws generalizing cur with
  | nil => simp
  | cons w rest ih =>
    cases hstep : apply_sign_write cur w with
    | error e =>
      rw [run_sign_writes_cons_err cur w rest e hstep] at hok
      cases hok
    | ok cur1 =>
      rw [run_sign_writes_cons_ok cur cur1 w rest hstep] at hok
      rcases apply_sign_write_ok_cases cur cur1 w hstep with
        ⟨hget2, heq⟩ | ⟨s0, hget2, hset0, hseq⟩
      · by_cases hwi : w.1 = i
        · exfalso
          rw [hwi, List.getElem?_eq_getElem hlen] at hget2
          cases hget2
        · rw [List.filter_cons, if_neg (by simpa using hwi)]
          exact ih cur hlen (by rw [← heq]; exact hok)
      · by_cases hwi : w.1 = i
        · have hcur1 : cur1[i]? = some ⟨some w.2⟩ := by
            rw [hseq, hwi]
            rw [List.getElem?_set_self]
            exact hlen
          have hnomore := run_sign_writes_no_write_to_set_index rest cur1 out i
            ⟨some w.2⟩ hcur1 rfl hok
          rw [List.filter_cons, if_pos (by simpa using hwi)]
          have hrest : rest.filter (fun w2 => decide (w2.1 = i)) = [] := by
            rw [List.filter_eq_nil_iff]
            intro a ha
            simpa using hnomore a ha
          rw [hrest]
          simp
        · rw [List.filter_cons, if_neg (by simpa using hwi)]
          refine ih cur1 ?_ hok
          rw [hseq, List.length_set]
          exact hlen

/-- Claim C8: the node sign and node score fields are guarded by explicit
is-set predicates; a freshly cleared slot is unset; reading a sign or score
before it has been set is a precondition violation that fails fast (an error,
never a silently returned default); writing an already-set slot is likewise
a precondition violation, and consequently in a sign (or score) pass that
completes without a violation every node is written at most once. -/
theorem node_sign_and_score_write_once_guarded
    (sInt : WriteOnceSlot Int) (sRat : WriteOnceSlot Rat) (v : Int) (q : Rat)
    (slots out : List (WriteOnceSlot Int)) (writes : List (Nat × Int)) (i : Nat) :
    (node_sign_is_set clear_node_sign = false ∧
     node_score_is_set clear_node_score = false) ∧
    (∃ e, get_node_sign clear_node_sign = Except.error e) ∧
    (∃ e, get_node_score clear_node_score = Except.error e) ∧
    (node_sign_is_set sInt = false →
      set_node_sign sInt v = Except.ok ⟨some v⟩ ∧
      get_node_sign ⟨some v⟩ = Except.ok v ∧ node_sign_is_set ⟨some v⟩ = true) ∧
    (node_sign_is_set sInt = true → ∃ e, set_node_sign sInt v = Except.error e) ∧
    (node_score_is_set sRat = false →
      set_node_score sRat q = Except.ok ⟨some q⟩ ∧
      get_node_score ⟨some q⟩ = Except.ok q ∧ node_score_is_set ⟨some q⟩ = true) ∧
    (node_score_is_set sRat = true → ∃ e, set_node_score sRat q = Except.error e) ∧
    (determine_node_signs_pass slots writes = Except.ok out → i < slots.length →
      (writes.filter (fun w => decide (w.1 = i))).length ≤ 1) := by
  refine ⟨⟨rfl, rfl⟩, ⟨_, rfl⟩, ⟨_, rfl⟩, ?_, ?_, ?_, ?_, ?_⟩
  · intro h
    unfold set_node_sign set_slot node_sign_is_set at *
    rw [h]
    exact ⟨rfl, rfl, rfl⟩
  · intro h
    unfold set_node_sign set_slot node_sign_is_set at *
    rw [h]
    exact ⟨_, rfl⟩
  · intro h
    unfold set_node_score set_slot node_score_is_set at *
    rw [h]
    exact ⟨rfl, rfl, rfl⟩
  · intro h
    unfold set_node_score set_slot node_score_is_set at *
    rw [h]
    exact ⟨_, rfl⟩
  · intro hok hlen
    unfold determine_node_signs_pass at hok
    refine run_sign_writes_at_most_one_write writes _ out i ?_ hok
    rw [List.length_map]
    exact hlen

/-- Witness for C8: on a two-node snapshot, the pass writing node 0 then
node 1 completes and wrote node 0 exactly once; the guarded accessors behave
as stated on concrete slots. -/
theorem node_sign_and_score_write_once_guarded_witness :
    (([((0 : Nat), (5 : Int)), (1, 7)]).filter (fun w => decide (w.1 = 0))).length ≤ 1 ∧
    set_node_sign ⟨none⟩ 5 = Except.ok ⟨some 5⟩ ∧
    (∃ e, set_node_sign ⟨some 3⟩ 5 = Except.error e) :=
  ⟨(node_sign_and_score_write_once_guarded ⟨none⟩ ⟨none⟩ 5 1 [⟨none⟩, ⟨none⟩]
      [⟨some 5⟩, ⟨some 7⟩] [(0, 5), (1, 7)] 0).2.2.2.2.2.2.2 rfl (by decide),
   ((node_sign_and_score_write_once_guarded ⟨none⟩ ⟨none⟩ 5 1 [⟨none⟩, ⟨none⟩]
      [⟨some 5⟩, ⟨some 7⟩] [(0, 5), (1, 7)] 0).2.2.2.1 rfl).1,
   (node_sign_and_score_write_once_guarded ⟨some 3⟩ ⟨none⟩ 5 1 [⟨none⟩, ⟨none⟩]
      [⟨some 5⟩, ⟨some 7⟩] [(0, 5), (1, 7)] 0).2.2.2.2.1 rfl⟩

theorem same_parent_set_refl (l : List Nat) : same_parent_set l l = true := by
  unfold same_parent_set
  rw [Bool.and_self]
  exact List.all_eq_true.mpr (fun p hp => decide_eq_true hp)

theorem getElem?_append_length_self {α : Type} (l : List α) (x : α) :
    (l ++ [x])[l.length]? = some x := by
  rw [List.getElem?_append_right (Nat.le_refl _), Nat.sub_self]
  rfl

theorem getElem?_append_singleton_ne {α : Type} (l : List α) (x : α) (c : Nat)
    (h : c ≠ l.length) : (l ++ [x])[c]? = l[c]? := by
  by_cases hc : c < l.length
  · exact List.getElem?_append_left hc
  · have h1 : l.length < c :=
      Nat.lt_of_le_of_ne (Nat.le_of_not_lt hc) (fun he => h he.symm)
    have ha : (l ++ [x]).length ≤ c := by
      rw [List.length_append]
      exact h1
    rw [List.getElem?_eq_none ha, List.getElem?_eq_none (Nat.le_of_lt h1)]

theorem find?_append_of_none {α : Type} (p : α → Bool) (l t : List α)
    (h : l.find? p = none) : (l ++ t).find? p = t.find? p := by
  induction l with
  | nil => rfl
  | cons a l2 ih =>
    cases hp : p a with
    | true => simp [List.find?_cons, hp] at h
    | false =>
      simp only [List.find?_cons, hp] at h
      rw [List.cons_append]
      simp only [List.find?_cons, hp]
      exact ih h

theorem find?_append_all_eq {α : Type} (p : α → Bool) (l t : List α) (v : α)
    (hl : ∀ c ∈ l, p c = true → c = v) (ht : ∀ c ∈ t, c = v)
    (htne : t ≠ []) (hv : p v = true) : (l ++ t).find? p = some v := by
  induction l with
  | nil =>
    cases t with
    | nil => exact absurd rfl htne
    | cons a t2 =>
      have ha : a = v := ht a (List.mem_cons_self a t2)
      rw [List.nil_append, ha]
      simp [List.find?_cons, hv]
  | cons a l2 ih =>
    cases hp : p a with
    | true =>
      have ha : a = v := hl a (List.mem_cons_self a l2) hp
      rw [List.cons_append, ha]
      simp [List.find?_cons, hv]
    | false =>
      rw [List.cons_append]
      have hskip : ((a :: (l2 ++ t)).find? p) = (l2 ++ t).find? p := by
        simp [List.find?_cons, hp]
      rw [hskip]
      exact ih (fun c hc hpc => hl c (List.mem_cons_of_mem a hc) hpc)

theorem children_of_add_managed (s : NodePool) (n : SubElementNodeRec) (p : Nat) :
    children_of (add_managed_node s n).1 p = children_of s p := rfl

theorem children_of_add_child_links (s : NodePool) (parents : List Nat) (c p : Nat) :
    children_of (add_child_links s parents c) p =
      children_of s p ++ parents.filterMap (fun q => if q = p then some c else none) := by
  unfold children_of add_child_links
  simp only []
  rw [List.filterMap_append]
  congr 1
  rw [List.filterMap_map]
  rfl

theorem nodes_add_child_links (s : NodePool) (parents : List Nat) (c : Nat) :
    (add_child_links s parents c).nodes = s.nodes := rfl

theorem is_child_with_parents_stable (s : NodePool) (node : SubElementNodeRec)
    (parents : List Nat) (links : List Nat) (c : Nat) (hc : c ≠ s.nodes.length) :
    is_child_with_parents
        (add_child_links (add_managed_node s node).1 links s.nodes.length) parents c =
      is_child_with_parents s parents c := by
  unfold is_child_with_parents
  have h2 : (add_child_links (add_managed_node s node).1 links s.nodes.length).nodes[c]? =
      s.nodes[c]? := by
    show (s.nodes ++ [node])[c]? = s.nodes[c]?
    exact getElem?_append_singleton_ne s.nodes node c hc
  rw [h2]

theorem is_child_with_parents_new (s : NodePool) (node : SubElementNodeRec)
    (parents : List Nat) (links : List Nat) (hparents : node.parents = parents) :
    is_child_with_parents
        (add_child_links (add_managed_node s node).1 links s.nodes.length) parents
        s.nodes.length = true := by
  unfold is_child_with_parents
  have h2 : (add_child_links (add_managed_node s node).1 links s.nodes.length).nodes[s.nodes.length]? =
      some node := by
    show (s.nodes ++ [node])[s.nodes.length]? = some node
    exact getElem?_append_length_self s.nodes node
  rw [h2]
  show same_parent_set node.parents parents = true
  rw [hparents]
  exact same_parent_set_refl parents

theorem common_child_after_create (s : NodePool) (node : SubElementNodeRec)
    (p : Nat) (ps : List Nat) (hparents : node.parents = p :: ps)
    (hnone : common_child s (p :: ps) = none) :
    common_child (add_child_links (add_managed_node s node).1 (p :: ps) s.nodes.length)
      (p :: ps) = some s.nodes.length := by
  have hnone2 : (children_of s p).find? (is_child_with_parents s (p :: ps)) = none := hnone
  show (children_of (add_child_links (add_managed_node s node).1 (p :: ps) s.nodes.length) p).find?
      (is_child_with_parents
        (add_child_links (add_managed_node s node).1 (p :: ps) s.nodes.length) (p :: ps)) =
    some s.nodes.length
  have hch : children_of
      (add_child_links (add_managed_node s node).1 (p :: ps) s.nodes.length) p =
      children_of s p ++
        (p :: ps).filterMap (fun q => if q = p then some s.nodes.length else none) := by
    rw [children_of_add_child_links, children_of_add_managed]
  rw [hch]
  have htail : (p :: ps).filterMap (fun q => if q = p then some s.nodes.length else none) =
      s.nodes.length :: ps.filterMap (fun q => if q = p then some s.nodes.length else none) := by
    rw [List.filterMap_cons]
    simp
  refine find?_append_all_eq _ _ _ s.nodes.length ?_ ?_ ?_ ?_
  · intro c hc hpc
    by_contra hcne
    have hstable := is_child_with_parents_stable s node (p :: ps) (p :: ps) c hcne
    rw [hstable] at hpc
    exact (List.find?_eq_none.mp hnone2 c hc) hpc
  · intro c hc
    obtain ⟨q, hq, hqc⟩ := List.mem_filterMap.mp hc
    by_cases hqp : q = p
    · rw [if_pos hqp] at hqc
      exact (Option.some.inj hqc).symm
    · rw [if_neg hqp] at hqc
      cases hqc
  · rw [htail]
    exact List.cons_ne_nil _ _
  · exact is_child_with_parents_new s node (p :: ps) (p :: ps) hparents

theorem find?_key_append_self {α β : Type} [DecidableEq α] (m : List (α × β))
    (k : α) (v : β) (h : m.find? (fun e => decide (e.1 = k)) = none) :
    (m ++ [(k, v)]).find? (fun e => decide (e.1 = k)) = some (k, v) := by
  rw [find?_append_of_none _ _ _ h]
  simp [List.find?_cons]

theorem create_edge_node_idem (s : NodePool) (p1 p2 : Nat) (pos : Rat) :
    create_edge_node (create_edge_node s p1 p2 pos).1 p1 p2 pos =
      create_edge_node s p1 p2 pos := by
  cases h : common_child s [p1, p2] with
  | some n => simp only [create_edge_node, h]
  | none =>
    have h2 := common_child_after_create s
      ⟨SubElementNodeKind.edgeNode, [p1, p2], pos, []⟩ p1 [p2] rfl h
    simp only [create_edge_node, h, add_managed_node] at h2 ⊢
    simp only [h2]

theorem create_child_internal_or_face_node_idem (s : NodePool) (parents : List Nat)
    (w : List Rat) (hne : parents ≠ []) :
    create_child_internal_or_face_node
        (create_child_internal_or_face_node s parents w).1 parents w =
      create_child_internal_or_face_node s parents w := by
  cases h : common_child s parents with
  | some n => simp only [create_child_internal_or_face_node, h]
  | none =>
    cases parents with
    | nil => exact absurd rfl hne
    | cons p ps =>
      have h2 := common_child_after_create s
        ⟨SubElementNodeKind.childNode, p :: ps, 0, w⟩ p ps rfl h
      simp only [create_child_internal_or_face_node, h, add_managed_node] at h2 ⊢
      simp only [h2]

theorem create_midside_node_idem (s : NodePool) (p1 p2 : Nat) :
    create_midside_node (create_midside_node s p1 p2).1 p1 p2 =
      create_midside_node s p1 p2 := by
  cases hfind : s.my_midside_node_map.find?
      (fun e => decide (e.1 = if p1 < p2 then (p1, p2) else (p2, p1))) with
  | some e => simp [create_midside_node, hfind]
  | none =>
    have h3 := find?_key_append_self s.my_midside_node_map
      (if p1 < p2 then (p1, p2) else (p2, p1)) s.nodes.length hfind
    simp [create_midside_node, add_managed_node, hfind, h3]

theorem create_mesh_node_idem (s : NodePool) (nid : Nat) :
    create_mesh_node (create_mesh_node s nid).1 nid = create_mesh_node s nid := by
  cases hfind : s.mesh_node_map.find? (fun e => decide (e.1 = nid)) with
  | some e => simp [create_mesh_node, get_mesh_node, hfind]
  | none =>
    have h3 := find?_key_append_self s.mesh_node_map nid s.nodes.length hfind
    simp [create_mesh_node, get_mesh_node, add_managed_node, hfind, h3]

theorem create_steiner_node_fresh (s : NodePool) (parents : List Nat) (w : List Rat) :
    (create_steiner_node s parents w).2 = s.nodes.length ∧
    (create_steiner_node s parents w).1.nodes.length = s.nodes.length + 1 := by
  constructor
  · rfl
  · show (s.nodes ++ [(⟨SubElementNodeKind.steinerNode, parents, 0, w⟩ : SubElementNodeRec)]).length =
      s.nodes.length + 1
    rw [List.length_append]
    rfl

/-- Counterexample to claim C3 as stated: create_steiner_node performs no
common-child lookup, so requesting a Steiner node twice with the same parent
set (pool nodes 0 and 1 of the concrete pool) returns two distinct nodes —
the second call does not return the identical node object. -/
theorem create_steiner_node_not_idempotent :
    ¬((create_steiner_node (create_steiner_node examplePool [0, 1] []).1 [0, 1] []).2 =
      (create_steiner_node examplePool [0, 1] []).2) := by decide

/-- Claim C3 (amended): requesting a child node twice with the same parent
set and creation rule returns the identical node both times — and the state
is unchanged by the second request — for create_edge_node,
create_child_internal_or_face_node (with a nonempty parent set),
create_midside_node, and create_mesh_node; create_steiner_node, however,
performs no common-child lookup and always constructs a fresh interior node
(extending the pool by one node). -/
theorem create_node_idempotent_except_steiner (s : NodePool) (p1 p2 : Nat)
    (pos : Rat) (parents : List Nat) (w : List Rat) (nid : Nat)
    (hne : parents ≠ []) :
    create_edge_node (create_edge_node s p1 p2 pos).1 p1 p2 pos =
      create_edge_node s p1 p2 pos ∧
    create_child_internal_or_face_node
        (create_child_internal_or_face_node s parents w).1 parents w =
      create_child_internal_or_face_node s parents w ∧
    create_midside_node (create_midside_node s p1 p2).1 p1 p2 =
      create_midside_node s p1 p2 ∧
    create_mesh_node (create_mesh_node s nid).1 nid = create_mesh_node s nid ∧
    (create_steiner_node s parents w).2 = s.nodes.length ∧
    (create_steiner_node s parents w).1.nodes.length = s.nodes.length + 1 :=
  ⟨create_edge_node_idem s p1 p2 pos,
   create_child_internal_or_face_node_idem s parents w hne,
   create_midside_node_idem s p1 p2,
   create_mesh_node_idem s nid,
   (create_steiner_node_fresh s parents w).1,
   (create_steiner_node_fresh s parents w).2⟩

/-- Witness for C3 (amended): on the concrete pool, repeating an edge-node
request returns the identical node and state, while a Steiner request
allocates the fresh pool index. -/
theorem create_node_idempotent_except_steiner_witness :
    create_edge_node (create_edge_node examplePool 0 1 0).1 0 1 0 =
      create_edge_node examplePool 0 1 0 ∧
    (create_steiner_node examplePool [0, 1] []).2 = examplePool.nodes.length :=
  ⟨(create_node_idempotent_except_steiner examplePool 0 1 0 [0, 1] [] 10 (by decide)).1,
   (create_node_idempotent_except_steiner examplePool 0 1 0 [0, 1] [] 10
      (by decide)).2.2.2.2.1⟩

theorem mem_foldl_sharing_filter (sharing : Nat → List Int) (ks : List Nat)
    (acc : List Int) (p : Int) :
    (p ∈ ks.foldl (fun acc2 k2 => acc2.filter (fun q => decide (q ∈ sharing k2))) acc ↔
      p ∈ acc ∧ ∀ k2 ∈ ks, p ∈ sharing k2) := by
  induction ks generalizing acc with
  | nil => simp
  | cons k2 rest ih =>
    rw [List.foldl_cons, ih, List.mem_filter, List.forall_mem_cons]
    simp [and_assoc]

theorem mem_shared_procs_intersection (sharing : Nat → List Int) (k : Nat)
    (ks : List Nat) (p : Int) :
    (p ∈ shared_procs_intersection sharing (k :: ks) ↔ ∀ k2 ∈ k :: ks, p ∈ sharing k2) := by
  show (p ∈ ks.foldl (fun acc2 k2 => acc2.filter (fun q => decide (q ∈ sharing k2)))
      (sharing k) ↔ _)
  rw [mem_foldl_sharing_filter, List.forall_mem_cons]

/-- Counterexample to claim C5 as stated: with entity key 1 shared only with
process 1 and entity key 2 shared only with process 2, process 1 shares an
ancestor node of the ancestry [1, 2], yet rank 0 sends no message at all —
the destinations are the intersection of the parents' sharing sets, not
every process sharing some ancestor. -/
theorem hanging_edge_messages_not_sent_to_all_ancestor_sharers :
    (1 : Int) ∈ procs_sharing_any_ancestor 0 exampleSharing [1, 2] ∧
    build_parallel_hanging_edge_node_messages 0 exampleSharing [[1, 2]] = [] := by
  constructor
  · decide
  · decide

/-- Claim C5 (amended): when hanging-edge child nodes are constructed across
ranks, each shared edge node's serialized ancestry (the ordered list of
parent entity keys) is sent, in the two-phase (size-probe then data) sparse
communication, exactly to every other process that shares all of the
ancestor nodes of that ancestry — the intersection of the parents'
sharing-process sets — and the receiving rank reconstructs or looks up the
node locally (build_missing_child_nodes). -/
theorem hanging_edge_node_messages_spec (myRank pr : Int)
    (sharing : Nat → List Int) (ancs : List (List Nat)) (anc : List Nat) :
    ((pr, anc) ∈ build_parallel_hanging_edge_node_messages myRank sharing ancs ↔
      anc ∈ ancs ∧ pr ≠ myRank ∧ anc ≠ [] ∧ ∀ k ∈ anc, pr ∈ sharing k) := by
  constructor
  · intro h
    obtain ⟨anc0, hanc0, hmem⟩ := List.mem_flatMap.mp h
    obtain ⟨p0, hp0, heq⟩ := List.mem_map.mp hmem
    obtain ⟨hp0i, hp0ne⟩ := List.mem_filter.mp hp0
    cases heq
    refine ⟨hanc0, of_decide_eq_true hp0ne, ?_, ?_⟩
    · intro hnil
      rw [hnil] at hp0i
      cases hp0i
    · cases hanc : anc with
      | nil =>
        rw [hanc] at hp0i
        cases hp0i
      | cons k ks =>
        rw [hanc] at hp0i
        intro k2 hk2
        exact (mem_shared_procs_intersection sharing k ks pr).mp hp0i k2 hk2
  · rintro ⟨hancs, hne, hanne, hall⟩
    apply List.mem_flatMap.mpr
    refine ⟨anc, hancs, List.mem_map.mpr ⟨pr, List.mem_filter.mpr ⟨?_, decide_eq_true hne⟩, rfl⟩⟩
    cases hanc : anc with
    | nil => exact absurd hanc hanne
    | cons k ks =>
      refine (mem_shared_procs_intersection sharing k ks pr).mpr ?_
      intro k2 hk2
      exact hall k2 (by rw [hanc]; exact hk2)

/-- Witness for C5 (amended): with both parent keys of the ancestry shared
with process 1, rank 0 sends the serialized ancestry to process 1. -/
theorem hanging_edge_node_messages_spec_witness :
    ((1 : Int), [1, 2]) ∈ build_parallel_hanging_edge_node_messages 0
      (fun k => if k = 1 then [1, 2] else if k = 2 then [1] else []) [[1, 2]] :=
  (hanging_edge_node_messages_spec 0 1
      (fun k => if k = 1 then [1, 2] else if k = 2 then [1] else []) [[1, 2]] [1, 2]).mpr
    ⟨by decide, by decide, by decide, by decide⟩

/-- Counterexample to claim C6 as stated: a repeat round triggered only by a
missing remote prolongation facet (measured maximum displacement 1, previous
padding 2) sets the new padding to 3/2, which is smaller than the previous
padding — the padding does not strictly increase on every repeat round. -/
theorem prolongation_padding_can_decrease :
    prolongation_repeat_needed true 2 ⟨1, true⟩ = true ∧
    ¬((2 : Rat) < next_proc_padding ⟨1, true⟩) := by
  constructor
  · decide
  · norm_num [next_proc_padding, prolongation_growth_multiplier]

/-- Claim C6 (amended): the adaptive ghost-padding loop starts from an
initial padding of three times the maximum element size (nonnegative for
nonnegative element sizes), repeats the search exactly while some node
reports a missing remote facet or the measured maximum prolongation
displacement exceeds the padding used, and on a repeat round sets the
padding to the fixed growth multiplier (3/2) times the measured maximum
displacement; when the repeat was triggered by the displacement exceeding
the padding the new padding strictly exceeds the old one, but when it was
triggered only by missing remote facets the padding need not increase, so
the update rule alone does not bound the widening or force termination. -/
theorem prolongation_padding_update_spec (procPadding : Rat)
    (r : ProlongationRound) (rest : List ProlongationRound) (maxElemSize : Rat) :
    (prolongation_repeat_needed true procPadding r = false →
      prolongation_pad_loop procPadding (r :: rest) = some procPadding) ∧
    (prolongation_repeat_needed true procPadding r = true →
      prolongation_pad_loop procPadding (r :: rest) =
        prolongation_pad_loop (next_proc_padding r) rest) ∧
    prolongation_repeat_needed true procPadding r =
      (r.missingRemoteProlongFacets || decide (procPadding < r.maxCdfemDisplacement)) ∧
    (0 ≤ procPadding → procPadding < r.maxCdfemDisplacement →
      procPadding < next_proc_padding r) ∧
    (0 ≤ maxElemSize → 0 ≤ initial_prolongation_padding maxElemSize) := by
  refine ⟨?_, ?_, ?_, ?_, ?_⟩
  · intro h
    simp only [prolongation_pad_loop, h]
    simp
  · intro h
    simp only [prolongation_pad_loop, h]
    simp
  · simp [prolongation_repeat_needed]
  · intro h0 hlt
    unfold next_proc_padding prolongation_growth_multiplier
    have hd : 0 < r.maxCdfemDisplacement := lt_of_le_of_lt h0 hlt
    linarith
  · intro h
    unfold initial_prolongation_padding
    linarith

/-- Witness for C6 (amended): with padding 1 and a measured displacement of
2 (no missing facets), the loop repeats and the padding strictly grows to
3. -/
theorem prolongation_padding_update_spec_witness :
    prolongation_pad_loop 1 [⟨2, false⟩] =
      prolongation_pad_loop (next_proc_padding ⟨2, false⟩) [] ∧
    (1 : Rat) < next_proc_padding ⟨2, false⟩ :=
  ⟨(prolongation_padding_update_spec 1 ⟨2, false⟩ [] 0).2.1 (by decide),
   (prolongation_padding_update_spec 1 ⟨2, false⟩ [] 0).2.2.2.1 (by norm_num)
     (by norm_num)⟩

theorem nearestStep_none {α : Type} (d : α → Rat) (x : α) :
    nearestStep d none x = some x := rfl

theorem nearestStep_some {α : Type} (d : α → Rat) (b x : α) :
    nearestStep d (some b) x = if d x < d b then some x else some b := rfl

theorem foldl_nearestStep_mem {α : Type} (d : α → Rat) (l : List α)
    (acc : Option α) (x : α) (h : l.foldl (nearestStep d) acc = some x) :
    x ∈ l ∨ acc = some x := by
  induction l generalizing acc with
  | nil => right; exact h
  | cons a t ih =>
    rw [List.foldl_cons] at h
    rcases ih (nearestStep d acc a) h with hm | he
    · left; exact List.mem_cons_of_mem a hm
    · cases acc with
      | none =>
        left
        rw [nearestStep_none] at he
        exact Option.some.inj he ▸ List.mem_cons_self a t
      | some b =>
        rw [nearestStep_some] at he
        by_cases hd : d a < d b
        · rw [if_pos hd] at he
          left
          exact Option.some.inj he ▸ List.mem_cons_self a t
        · rw [if_neg hd] at he
          right
          exact he

theorem foldl_nearestStep_min {α : Type} (d : α → Rat) (l : List α)
    (acc : Option α) (x : α) (h : l.foldl (nearestStep d) acc = some x) :
    (∀ y ∈ l, d x ≤ d y) ∧ ∀ b, acc = some b → d x ≤ d b := by
  induction l generalizing acc with
  | nil =>
    refine ⟨fun y hy => absurd hy (List.not_mem_nil y), fun b hb => ?_⟩
    have hxb := Option.some.inj (h.symm.trans hb)
    rw [hxb]
  | cons a t ih =>
    rw [List.foldl_cons] at h
    obtain ⟨hall, hacc⟩ := ih (nearestStep d acc a) h
    constructor
    · intro y hy
      rcases List.mem_cons.mp hy with rfl | hyt
      · cases acc with
        | none => exact hacc y rfl
        | some b =>
          by_cases hd : d y < d b
          · exact hacc y (by rw [nearestStep_some, if_pos hd])
          · exact le_trans (hacc b (by rw [nearestStep_some, if_neg hd]))
              (le_of_not_lt hd)
      · exact hall y hyt
    · intro b hb
      by_cases hd : d a < d b
      · exact le_trans (hacc a (by rw [hb, nearestStep_some, if_pos hd]))
          (le_of_lt hd)
      · exact hacc b (by rw [hb, nearestStep_some, if_neg hd])

theorem foldl_nearestStep_none {α : Type} (d : α → Rat) (l : List α)
    (acc : Option α) (h : l.foldl (nearestStep d) acc = none) :
    l = [] ∧ acc = none := by
  induction l generalizing acc with
  | nil => exact ⟨rfl, h⟩
  | cons a t ih =>
    rw [List.foldl_cons] at h
    obtain ⟨ht, hstep⟩ := ih (nearestStep d acc a) h
    exfalso
    cases acc with
    | none =>
      rw [nearestStep_none] at hstep
      cases hstep
    | some b =>
      rw [nearestStep_some] at hstep
      by_cases hd : d a < d b
      · rw [if_pos hd] at hstep; cases hstep
      · rw [if_neg hd] at hstep; cases hstep

theorem pickNearest_mem {α : Type} (d : α → Rat) (l : List α) (x : α)
    (h : pickNearest d l = some x) : x ∈ l := by
  rcases foldl_nearestStep_mem d l none x h with hm | he
  · exact hm
  · cases he

theorem pickNearest_min {α : Type} (d : α → Rat) (l : List α) (x : α)
    (h : pickNearest d l = some x) : ∀ y ∈ l, d x ≤ d y :=
  (foldl_nearestStep_min d l none x h).1

theorem pickNearest_none_iff {α : Type} (d : α → Rat) (l : List α) :
    pickNearest d l = none ↔ l = [] := by
  constructor
  · intro h
    exact (foldl_nearestStep_none d l none h).1
  · rintro rfl
    rfl

/-- Claim C7: find_prolongation_node queries the nearest facet among exactly
those search trees whose field-set is a superset of the node's required
fields (conjuncts one to three); if no facet candidate exists and some
matching tree is remote or empty it returns null with the
missing-remote-facet flag raised (conjunct four); otherwise it falls back to
the nearest stashed node whose field set is a superset of the required
fields, and if that also fails the diagnostic is logged, null is returned
without raising the flag and without aborting, and the node keeps its
default field values (conjunct five). -/
theorem find_prolongation_node_spec
    (treeMap : List (List Nat × Option (List ProlongFacet)))
    (prolongNodeMap : List ProlongNodeData) (requiredFields : List Nat) :
    (∀ f, find_prolongation_node treeMap prolongNodeMap requiredFields =
        (some (ProlongSrcData.facetPoint f), false) →
      f ∈ matching_facet_candidates treeMap requiredFields ∧
      ∀ g ∈ matching_facet_candidates treeMap requiredFields, f.dist2 ≤ g.dist2) ∧
    (matching_facet_candidates treeMap requiredFields ≠ [] →
      ∃ f, find_prolongation_node treeMap prolongNodeMap requiredFields =
        (some (ProlongSrcData.facetPoint f), false)) ∧
    (∀ f, f ∈ matching_facet_candidates treeMap requiredFields →
      ∃ e ∈ treeMap, fields_include e.1 requiredFields = true ∧
        ∃ l2, e.2 = some l2 ∧ f ∈ l2) ∧
    (matching_facet_candidates treeMap requiredFields = [] →
      has_matching_empty_tree treeMap requiredFields = true →
      find_prolongation_node treeMap prolongNodeMap requiredFields = (none, true)) ∧
    (matching_facet_candidates treeMap requiredFields = [] →
      has_matching_empty_tree treeMap requiredFields = false →
      (∀ n, find_prolongation_node treeMap prolongNodeMap requiredFields =
          (some (ProlongSrcData.nodePoint n), false) →
        n ∈ prolongNodeMap ∧ fields_include n.fields requiredFields = true ∧
        ∀ m ∈ prolongNodeMap, fields_include m.fields requiredFields = true →
          n.dist2 ≤ m.dist2) ∧
      (prolongNodeMap.filter (fun n => fields_include n.fields requiredFields) = [] →
        find_prolongation_node treeMap prolongNodeMap requiredFields = (none, false))) := by
  refine ⟨?_, ?_, ?_, ?_, ?_⟩
  · intro f hres
    cases hpick : pickNearest ProlongFacet.dist2
        (matching_facet_candidates treeMap requiredFields) with
    | some f0 =>
      simp only [find_prolongation_node, hpick] at hres
      have hff : f0 = f := by simpa using hres
      subst hff
      exact ⟨pickNearest_mem _ _ _ hpick, pickNearest_min _ _ _ hpick⟩
    | none =>
      exfalso
      simp only [find_prolongation_node, hpick] at hres
      cases hemp : has_matching_empty_tree treeMap requiredFields with
      | true => simp [hemp] at hres
      | false =>
        simp only [hemp] at hres
        cases hpick2 : pickNearest ProlongNodeData.dist2
            (prolongNodeMap.filter (fun n => fields_include n.fields requiredFields)) with
        | some n0 => simp [hpick2] at hres
        | none => simp [hpick2] at hres
  · intro hne
    cases hpick : pickNearest ProlongFacet.dist2
        (matching_facet_candidates treeMap requiredFields) with
    | some f0 =>
      exact ⟨f0, by simp only [find_prolongation_node, hpick]⟩
    | none =>
      exact absurd ((pickNearest_none_iff _ _).mp hpick) hne
  · intro f hf
    obtain ⟨e, he, hfe⟩ := List.mem_flatMap.mp hf
    obtain ⟨he1, he2⟩ := List.mem_filter.mp he
    cases hopt : e.2 with
    | none =>
      rw [hopt] at hfe
      cases hfe
    | some l2 =>
      rw [hopt] at hfe
      exact ⟨e, he1, he2, l2, hopt, hfe⟩
  · intro hcand hemp
    have hpick : pickNearest ProlongFacet.dist2
        (matching_facet_candidates treeMap requiredFields) = none := by
      rw [hcand]
      rfl
    simp [find_prolongation_node, hpick, hemp]
  · intro hcand hemp
    have hpick : pickNearest ProlongFacet.dist2
        (matching_facet_candidates treeMap requiredFields) = none := by
      rw [hcand]
      rfl
    constructor
    · intro n hres
      simp only [find_prolongation_node, hpick, hemp] at hres
      cases hpick2 : pickNearest ProlongNodeData.dist2
          (prolongNodeMap.filter (fun m => fields_include m.fields requiredFields)) with
      | none => simp [hpick2] at hres
      | some n0 =>
        simp only [hpick2] at hres
        have hnn : n0 = n := by simpa using hres
        subst hnn
        have hmem := pickNearest_mem _ _ _ hpick2
        obtain ⟨hmem1, hmem2⟩ := List.mem_filter.mp hmem
        refine ⟨hmem1, hmem2, ?_⟩
        intro m hm hmf
        exact pickNearest_min _ _ _ hpick2 m (List.mem_filter.mpr ⟨hm, hmf⟩)
    · intro hfilter
      have hpick2 : pickNearest ProlongNodeData.dist2
          (prolongNodeMap.filter (fun n => fields_include n.fields requiredFields)) = none := by
        rw [hfilter]
        rfl
      simp [find_prolongation_node, hpick, hemp, hpick2]

/-- Witness for C7: on the concrete tree map (one matching populated tree
and one matching remote tree) with required field 1, a nearest facet is
returned with the flag down; with required field 3 (no matching tree at
all), the node fallback applies. -/
theorem find_prolongation_node_spec_witness :
    (∃ f, find_prolongation_node exampleTreeMap exampleNodeMap [1] =
      (some (ProlongSrcData.facetPoint f), false)) ∧
    find_prolongation_node exampleTreeMap [] [3] = (none, false) :=
  ⟨(find_prolongation_node_spec exampleTreeMap exampleNodeMap [1]).2.1 (by decide),
   ((find_prolongation_node_spec exampleTreeMap [] [3]).2.2.2.2 (by decide)
      (by decide)).2 (by decide)⟩

theorem check_all_element_side_parts_each (ps : PhaseSupportModel)
    (cfgs : List SideNeighborhood)
    (hall : check_all_element_side_parts ps cfgs = Except.ok true) :
    ∀ cfg ∈ cfgs, check_element_side_parts ps cfg = Except.ok true := by
  induction cfgs with
  | nil => intro cfg hc; cases hc
  | cons c rest ih =>
    intro cfg hc
    cases hc1 : check_element_side_parts ps c with
    | error e =>
      rw [check_all_element_side_parts, hc1] at hall
      cases hall
    | ok b =>
      rw [check_all_element_side_parts, hc1] at hall
      cases hr : check_all_element_side_parts ps rest with
      | error e =>
        rw [hr] at hall
        simp at hall
      | ok brest =>
        rw [hr] at hall
        have hb : (b && brest) = true := by simpa using hall
        rw [Bool.and_eq_true] at hb
        rcases List.mem_cons.mp hc with rfl | hcr
        · rw [hc1, hb.1]
        · exact ih (by rw [hr, hb.2]) cfg hcr

/-- Claim C2: after the second modification pass of modify_mesh completes —
update_element_side_parts followed by the asserted check over every side of
the active locally owned elements — every checked side configuration
touches at most two distinct conformal volume parts; a side touching exactly
two distinct conformal volume parts with differing phase and a registered
interface part exists as exactly one side entity carrying every registered
interface part; and a side touching only one conformal volume part carries
no side-rank interface part. -/
theorem update_element_side_parts_invariant (ps : PhaseSupportModel)
    (cfgs : List SideNeighborhood) (cfg : SideNeighborhood)
    (hall : check_all_element_side_parts ps cfgs = Except.ok true)
    (hmem : cfg ∈ cfgs) :
    (conformal_volume_parts_of ps cfg).length ≤ 2 ∧
    (∀ p0 p1, conformal_volume_parts_of ps cfg = [p0, p1] →
      ps.get_iopart_phase p0 ≠ ps.get_iopart_phase p1 →
      conformal_side_parts_of ps p0 p1 ≠ [] →
      ∃ s0, cfg.sides = [s0] ∧ ∀ q ∈ conformal_side_parts_of ps p0 p1, q ∈ s0) ∧
    (∀ p0, conformal_volume_parts_of ps cfg = [p0] →
      ∃ s0, cfg.sides = [s0] ∧
        ∀ part ∈ s0, ¬(ps.rank part = PartRank.sideRank ∧ ps.is_interface part = true)) := by
  have hchk := check_all_element_side_parts_each ps cfgs hall cfg hmem
  refine ⟨?_, ?_, ?_⟩
  · cases hcvp : conformal_volume_parts_of ps cfg with
    | nil => simp
    | cons p0 tl =>
      cases tl with
      | nil => simp
      | cons p1 tl2 =>
        cases tl2 with
        | nil => simp
        | cons p2 tl3 =>
          exfalso
          simp only [check_element_side_parts, hcvp] at hchk
          simp at hchk
  · intro p0 p1 hcvp hph hcsp
    simp only [check_element_side_parts, hcvp] at hchk
    rw [if_pos hph] at hchk
    cases hcs : conformal_side_parts_of ps p0 p1 with
    | nil => exact absurd hcs hcsp
    | cons c cs =>
      simp only [hcs] at hchk
      cases hsides : cfg.sides with
      | nil =>
        simp [hsides] at hchk
      | cons s0 stl =>
        cases stl with
        | nil =>
          simp only [hsides] at hchk
          have hb : ((c :: cs).all (fun q => decide (q ∈ s0))) = true := by
            simpa using hchk
          refine ⟨s0, rfl, ?_⟩
          intro q hq
          exact of_decide_eq_true (List.all_eq_true.mp hb q hq)
        | cons s1 stl2 =>
          simp [hsides] at hchk
  · intro p0 hcvp
    simp only [check_element_side_parts, hcvp] at hchk
    unfold check_side_has_no_interface_part at hchk
    cases hsides : cfg.sides with
    | nil =>
      simp [hsides] at hchk
    | cons s0 stl =>
      cases stl with
      | nil =>
        simp only [hsides] at hchk
        have hb : (!(s0.any (fun part =>
            decide (ps.rank part = PartRank.sideRank) && ps.is_interface part))) = true := by
          simpa using hchk
        rw [Bool.not_eq_true'] at hb
        refine ⟨s0, rfl, ?_⟩
        rintro part hp ⟨hr, hi⟩
        have hany : s0.any (fun part =>
            decide (ps.rank part = PartRank.sideRank) && ps.is_interface part) = true :=
          List.any_eq_true.mpr ⟨part, hp, by simp [hr, hi]⟩
        rw [hany] at hb
        cases hb
      | cons s1 stl2 =>
        simp [hsides] at hchk

/-- Witness for C2: the concrete interface configuration (two active
elements of phases 0 and 1, one side entity carrying the interface part 5)
passes the asserted check, touches two conformal volume parts, and the one
side carries every registered interface part. -/
theorem update_element_side_parts_invariant_witness :
    (conformal_volume_parts_of exampleSidePhaseSupport exampleSideNeighborhood).length ≤ 2 ∧
    (∃ s0, exampleSideNeighborhood.sides = [s0] ∧
      ∀ q ∈ conformal_side_parts_of exampleSidePhaseSupport 0 1, q ∈ s0) :=
  ⟨(update_element_side_parts_invariant exampleSidePhaseSupport
      [exampleSideNeighborhood] exampleSideNeighborhood rfl
      (List.mem_singleton.mpr rfl)).1,
   (update_element_side_parts_invariant exampleSidePhaseSupport
      [exampleSideNeighborhood] exampleSideNeighborhood rfl
      (List.mem_singleton.mpr rfl)).2.1 0 1 rfl (by decide) (by decide)⟩
